import Mathlib

/-!
Verification of the shipping-quotes aggregation endpoint
(`api/shipping/quote.js`) by shallow embedding.

Network effects are modelled by a `Net` record fixing, for one request,
the outcome of each upstream call (OAuth responses and rate responses);
the carrier responses already normalized to canonical quotes are supplied
as lists in `Net`.  Environment variables are modelled as plain strings,
with the empty string standing for an unset (falsy) variable, which is
exactly what the code's truthiness checks distinguish.  `JSON.parse` is
modelled as an abstract function `String → Option JVal`, `none` standing
for a thrown syntax error.  Monetary amounts are rationals.
-/

namespace ShipQuotes

/-- A canonical quote record as produced by the carrier mappers and the
demo generator. -/
structure Quote where
  carrier : String
  service_name : String
  total_charge : ℚ
  transit_days : Option Nat
  estimated_delivery_date : Option String
  notes : Option String
  deriving DecidableEq, Repr

/-- A JSON value (for the parsed request body). -/
inductive JVal where
  | null
  | bool (b : Bool)
  | num (q : ℚ)
  | str (s : String)
  | arr (xs : List JVal)
  | obj (fields : List (String × JVal))

/-- The request body as delivered by the platform: a raw string, an
already-parsed object, or nothing. -/
inductive RBodyIn where
  | str (s : String)
  | obj (v : JVal)
  | noBody

/-- An inbound request: method, the stringified `demo`/`diag`/`only`
query parameters (absent parameters stringify to `""`), and the body. -/
structure Request where
  method : String
  demo : String
  diag : String
  only : String
  body : RBodyIn

/-- Outcome of one upstream token-endpoint call: HTTP success flag,
status, error text, and the `access_token` field of its JSON body. -/
structure TokenRes where
  ok : Bool
  status : Nat
  text : String
  token : String
  deriving DecidableEq, Repr

/-- Outcome of one upstream rate-endpoint call. -/
structure RateRes where
  ok : Bool
  status : Nat
  text : String
  deriving DecidableEq, Repr

/-- Per-request network behaviour: every upstream call the handler can
make, with the carrier rate payloads already normalized to quotes. -/
structure Net where
  upsAuthRes : TokenRes
  upsRateRes : RateRes
  upsRated : List Quote
  fedexBasicRes : TokenRes
  fedexBodyRes : TokenRes
  fedexRateRes : RateRes
  fedexRated : List Quote
  deriving DecidableEq

/-- Process environment: carrier credentials, `""` meaning unset. -/
structure Env where
  UPS_CLIENT_ID : String
  UPS_CLIENT_SECRET : String
  FEDEX_CLIENT_ID : String
  FEDEX_CLIENT_SECRET : String
  deriving DecidableEq

instance {ε α : Type} [DecidableEq ε] [DecidableEq α] : DecidableEq (Except ε α)
  | .error e, .error f =>
    if h : e = f then .isTrue (by rw [h]) else .isFalse fun c => h (by injection c)
  | .error _, .ok _ => .isFalse fun c => Except.noConfusion c
  | .ok _, .error _ => .isFalse fun c => Except.noConfusion c
  | .ok a, .ok b =>
    if h : a = b then .isTrue (by rw [h]) else .isFalse fun c => h (by injection c)

/-- `String.prototype.toLowerCase` on one character: ASCII uppercase maps
down by 32, everything else is unchanged (the service names and carrier
hints involved are ASCII apart from symbols left fixed). -/
def charLower (c : Char) : Char :=
  if 'A' ≤ c ∧ c ≤ 'Z' then Char.ofNat (c.toNat + 32) else c

/-- `String.prototype.toLowerCase`. -/
def jsToLower (s : String) : String := ⟨s.data.map charLower⟩

/-- `upsAuth()`: missing credentials throw; otherwise a single Basic-auth
token call whose failure throws, and whose success yields the token. -/
def upsAuth (env : Env) (net : Net) : Except String String :=
  if env.UPS_CLIENT_ID = "" ∨ env.UPS_CLIENT_SECRET = "" then
    .error "UPS credentials missing"
  else if net.upsAuthRes.ok then .ok net.upsAuthRes.token
  else .error ("UPS auth failed " ++ toString net.upsAuthRes.status ++ " " ++ net.upsAuthRes.text)

/-- `getUpsRates(input)`: auth, then the rate call; a non-success rate
response throws, a success yields the normalized quotes.  The request
body only shapes the outbound payload, whose effect is part of `Net`. -/
def getUpsRates (env : Env) (net : Net) (_input : JVal) : Except String (List Quote) :=
  match upsAuth env net with
  | .error e => .error e
  | .ok _tok =>
    if net.upsRateRes.ok then .ok net.upsRated
    else .error ("UPS rate error " ++ toString net.upsRateRes.status ++ " " ++ net.upsRateRes.text)

/-- Which credential-transmission strategy a FedEx token call used. -/
inductive FxAttempt where
  | basicHeader
  | bodyCreds
  deriving DecidableEq, Repr

/-- `fedexAuth()`: missing credentials throw with no call made; otherwise
a Basic-header call, and if (and only if) it is not ok, one retry with
the credentials form-encoded in the body; failure of the second call
throws.  Returns the result together with the trace of attempts. -/
def fedexAuthSteps (env : Env) (net : Net) : Except String String × List FxAttempt :=
  if env.FEDEX_CLIENT_ID = "" ∨ env.FEDEX_CLIENT_SECRET = "" then
    (.error "FedEx credentials missing", [])
  else if net.fedexBasicRes.ok then (.ok net.fedexBasicRes.token, [.basicHeader])
  else if net.fedexBodyRes.ok then (.ok net.fedexBodyRes.token, [.basicHeader, .bodyCreds])
  else (.error ("FedEx auth failed " ++ toString net.fedexBodyRes.status ++ " "
          ++ net.fedexBodyRes.text), [.basicHeader, .bodyCreds])

def fedexAuth (env : Env) (net : Net) : Except String String :=
  (fedexAuthSteps env net).1

/-- `getFedexRates(input)`: auth (with fallback), then the rate call. -/
def getFedexRates (env : Env) (net : Net) (_input : JVal) : Except String (List Quote) :=
  match fedexAuth env net with
  | .error e => .error e
  | .ok _tok =>
    if net.fedexRateRes.ok then .ok net.fedexRated
    else .error ("FedEx rate error " ++ toString net.fedexRateRes.status ++ " " ++ net.fedexRateRes.text)

/-- The four fixed quotes of `demoResponse()`. -/
def demoResponse : List Quote :=
  [ { carrier := "UPS", service_name := "UPS速 Ground", total_charge := (3845 : ℚ)/100,
      transit_days := some 4, estimated_delivery_date := none, notes := some "demo" },
    { carrier := "FedEx", service_name := "FedEx Ground速", total_charge := (3690 : ℚ)/100,
      transit_days := some 4, estimated_delivery_date := none, notes := some "demo" },
    { carrier := "UPS", service_name := "UPS 2nd Day Air速", total_charge := (9420 : ℚ)/100,
      transit_days := some 2, estimated_delivery_date := none, notes := some "demo" },
    { carrier := "FedEx", service_name := "FedEx 2Day速", total_charge := (9210 : ℚ)/100,
      transit_days := some 2, estimated_delivery_date := none, notes := some "demo" } ]

/-- `safeParse(s)`: `JSON.parse` in a try/catch that substitutes the
empty object for any parse failure. -/
def safeParse (parse : String → Option JVal) (s : String) : JVal :=
  (parse s).getD (.obj [])

/-- Line 24 of the handler: a string body goes through `safeParse`, an
object body is used as is, and a missing body becomes the empty object. -/
def bodyOf (parse : String → Option JVal) (b : RBodyIn) : JVal :=
  match b with
  | .str s => safeParse parse s
  | .obj v => v
  | .noBody => .obj []

/-- Lines 28-31: the dispatched carrier pipelines, labelled, in
invocation order (UPS pushed before FedEx). -/
def carrierTasks (env : Env) (net : Net) (body : JVal) (only : String) :
    List (String × Except String (List Quote)) :=
  (if only = "" ∨ only = "ups" then [("UPS", getUpsRates env net body)] else [])
    ++ (if only = "" ∨ only = "fedex" then [("FedEx", getFedexRates env net body)] else [])

/-- Lines 34-39, fulfilled side: the merged quote list, concatenated in
task order. -/
def settledQuotes (tasks : List (String × Except String (List Quote))) : List Quote :=
  tasks.foldr (fun t acc => match t.2 with | .ok v => v ++ acc | .error _ => acc) []

/-- Lines 34-39, rejected side: one warning string per failed task, of
the form name, colon, message (with the code's fallback for a falsy
message). -/
def settledWarnings (tasks : List (String × Except String (List Quote))) : List String :=
  tasks.filterMap fun t =>
    match t.2 with
    | .ok _ => none
    | .error m => some (t.1 ++ ": " ++ (if m = "" then "unknown error" else m))

/-- The sort of line 45: ascending by `total_charge`, numerically. -/
def byCharge (a b : Quote) : Prop := a.total_charge ≤ b.total_charge

instance : DecidableRel byCharge := fun a b =>
  inferInstanceAs (Decidable (a.total_charge ≤ b.total_charge))

instance : IsTotal Quote byCharge := ⟨fun a b => le_total a.total_charge b.total_charge⟩

instance : IsTrans Quote byCharge := ⟨fun _ _ _ h h' => le_trans h h'⟩

/-- A stable comparison sort, as `Array.prototype.sort` with the numeric
comparator is specified to be. -/
def sortQuotes (l : List Quote) : List Quote := List.insertionSort byCharge l

/-- `Array.prototype.join(sep)`. -/
def joinSep (sep : String) : List String → String
  | [] => ""
  | [x] => x
  | x :: y :: xs => x ++ sep ++ joinSep sep (y :: xs)

/-- A response body, one constructor per distinct JSON shape the handler
emits. -/
inductive RBody where
  | empty
  | plain (s : String)
  | hintBody
  | diagBody
  | quotesBody (quotes : List Quote) (warnings : Option (List String))
  | errBody (error : String) (detail : String)
  deriving DecidableEq

/-- An HTTP response: status plus body. -/
structure HRes where
  status : Nat
  body : RBody
  deriving DecidableEq

/-- The exported request handler of `api/shipping/quote.js`. -/
def handler (env : Env) (net : Net) (parse : String → Option JVal) (req : Request) : HRes :=
  if req.method = "OPTIONS" then ⟨200, .empty⟩
  else
    let isDemo := req.demo = "1"
    let isDiag := req.diag = "1"
    if req.method = "GET" then
      if isDiag then ⟨200, .diagBody⟩
      else if isDemo then ⟨200, .quotesBody demoResponse none⟩
      else ⟨200, .hintBody⟩
    else if ¬ req.method = "POST" then ⟨405, .plain "Method Not Allowed"⟩
    else if isDemo then ⟨200, .quotesBody demoResponse none⟩
    else
      let body := bodyOf parse req.body
      let only := jsToLower req.only
      let tasks := carrierTasks env net body only
      let quotes := settledQuotes tasks
      let errors := settledWarnings tasks
      if quotes.isEmpty then
        let d := joinSep " | " errors
        ⟨502, .errBody "No rates from carriers" (if d = "" then "No quotes" else d)⟩
      else
        ⟨200, .quotesBody (sortQuotes quotes) (if errors.isEmpty then none else some errors)⟩

/-! ### parseTransit (lines 284-288)

The JavaScript regular expression `(\w+)_DAYS?` is embedded with its
exact semantics: the match starting leftmost wins, and at that start the
group `\w+` is greedy, so the captured word is the longest word-character
run that leaves a literal `_DAY` right after it. -/

/-- `\w`: ASCII letter, digit, or underscore. -/
def isWordChar (c : Char) : Bool := c.isAlphanum || c = '_'

/-- Greedy capture length: the largest `k ≤ bound`, `k ≥ 1`, such that
the four characters after the first `k` are `_DAY`. -/
def pickK (l : List Char) : Nat → Option Nat
  | 0 => none
  | Nat.succ k =>
    if (l.drop (k + 1)).take 4 = ['_', 'D', 'A', 'Y'] then some (k + 1)
    else pickK l k

/-- Try to match `(\w+)_DAYS?` at the head of `l`; on success, the
captured group.  (The optional `S` never affects the capture.) -/
def capAt (l : List Char) : Option (List Char) :=
  match pickK l (l.takeWhile isWordChar).length with
  | some k => some (l.take k)
  | none => none

/-- Leftmost match: scan start positions left to right. -/
def findCap : List Char → Option (List Char)
  | [] => none
  | c :: rest =>
    match capAt (c :: rest) with
    | some cap => some cap
    | none => findCap rest

/-- The cardinal-word table `{ONE:1, ..., SEVEN:7}`. -/
def wordMap (w : List Char) : Option Nat :=
  if w = "ONE".data then some 1
  else if w = "TWO".data then some 2
  else if w = "THREE".data then some 3
  else if w = "FOUR".data then some 4
  else if w = "FIVE".data then some 5
  else if w = "SIX".data then some 6
  else if w = "SEVEN".data then some 7
  else none

/-- `parseTransit(s)`: first regex match's capture looked up in the
cardinal table; `none` models `undefined`. -/
def parseTransit (s : String) : Option Nat :=
  (findCap s.data).bind wordMap

/-! ### filterServices (src/unnamed/part_001, lines 46-55) -/

/-- `String.prototype.isPrefixOf`-style check used by `jsIncludes`. -/
def includesAux (ndl : List Char) : List Char → Bool
  | [] => ndl.isEmpty
  | c :: rest => ndl.isPrefixOf (c :: rest) || includesAux ndl rest

/-- `hay.includes(ndl)`. -/
def jsIncludes (hay ndl : String) : Bool := includesAux ndl.data hay.data

/-- The fixed keyword table, with the fallback to the literal token. -/
def kwMap (f : String) : List String :=
  if f = "ground" then ["ground", "home delivery"]
  else if f = "2day" then ["2 day", "2day"]
  else if f = "overnight" then
    ["overnight", "next day", "priority overnight", "standard overnight", "saver"]
  else [f]

/-- `filterServices(q, filters)`. -/
def filterServices (q : Quote) (filters : List String) : Bool :=
  if filters.isEmpty then true
  else
    let name := jsToLower q.service_name
    filters.any fun f => (kwMap (jsToLower f)).any fun k => jsIncludes name k

/-! ### Spec-side predicates used to state or refute claims -/

/-- Split a character list into its maximal word-character runs
(tokens), accumulator-style. -/
def wordRuns : List Char → List Char → List (List Char)
  | [], acc => if acc.isEmpty then [] else [acc.reverse]
  | c :: rest, acc =>
    if isWordChar c then wordRuns rest (c :: acc)
    else if acc.isEmpty then wordRuns rest []
    else acc.reverse :: wordRuns rest []

/-- The seven cardinal words of the table. -/
def cardinalWords : List (List Char) :=
  ["ONE", "TWO", "THREE", "FOUR", "FIVE", "SIX", "SEVEN"].map String.data

/-- A token of the shape WORD_DAY or WORD_DAYS with WORD cardinal. -/
def isCardinalDayToken (r : List Char) : Bool :=
  cardinalWords.any fun w => r = w ++ "_DAY".data || r = w ++ "_DAYS".data

/-- The condition of claim C4, read off the spec: the string contains a
token of the shape WORD_DAY or WORD_DAYS with WORD a cardinal ONE..SEVEN. -/
def claimContainsCardinalToken (s : String) : Bool :=
  (wordRuns s.data []).any isCardinalDayToken

/-- Whether an `Except` is on its error side (a rejected promise). -/
def isErr {ε α : Type} : Except ε α → Bool
  | .error _ => true
  | .ok _ => false

/-! ### Helper lemmas -/

theorem handler_post (env : Env) (net : Net) (parse : String → Option JVal) (req : Request)
    (hm : req.method = "POST") (hd : req.demo ≠ "1") :
    handler env net parse req =
      (if (settledQuotes (carrierTasks env net (bodyOf parse req.body) (jsToLower req.only))).isEmpty then
         ⟨502, .errBody "No rates from carriers"
           (if joinSep " | " (settledWarnings (carrierTasks env net (bodyOf parse req.body) (jsToLower req.only))) = ""
            then "No quotes"
            else joinSep " | " (settledWarnings (carrierTasks env net (bodyOf parse req.body) (jsToLower req.only))))⟩
       else
         ⟨200, .quotesBody
           (sortQuotes (settledQuotes (carrierTasks env net (bodyOf parse req.body) (jsToLower req.only))))
           (if (settledWarnings (carrierTasks env net (bodyOf parse req.body) (jsToLower req.only))).isEmpty
            then none
            else some (settledWarnings (carrierTasks env net (bodyOf parse req.body) (jsToLower req.only))))⟩ :
        HRes) := by
  unfold handler
  rw [hm]
  rw [if_neg (by decide : ¬ ("POST" = "OPTIONS"))]
  simp only []
  rw [if_neg (by decide : ¬ ("POST" = "GET"))]
  simp only [not_true, if_false]
  rw [if_neg hd]

theorem settledQuotes_eq_nil
    {tasks : List (String × Except String (List Quote))}
    (h : ∀ t ∈ tasks, isErr t.2 = true) : settledQuotes tasks = [] := by
  induction tasks with
  | nil => rfl
  | cons t ts ih =>
    have ht := h t (List.mem_cons_self t ts)
    have hts := ih fun u hu => h u (List.mem_cons_of_mem t hu)
    simp only [settledQuotes, List.foldr_cons] at hts ⊢
    cases he : t.2 with
    | ok v => rw [he] at ht; simp [isErr] at ht
    | error m => exact hts

theorem settledWarnings_cons_error
    (n : String) (m : String) (ts : List (String × Except String (List Quote))) :
    settledWarnings ((n, Except.error m) :: ts) =
      (n ++ ": " ++ (if m = "" then "unknown error" else m)) :: settledWarnings ts := rfl

theorem settledWarnings_eq_nil_iff
    (tasks : List (String × Except String (List Quote))) :
    settledWarnings tasks = [] ↔ ∀ t ∈ tasks, isErr t.2 = false := by
  simp only [settledWarnings, List.filterMap_eq_nil_iff]
  constructor
  · intro h t ht
    have h2 := h t ht
    cases he : t.2 with
    | ok v => rfl
    | error m => rw [he] at h2; simp at h2
  · intro h t ht
    have h2 := h t ht
    cases he : t.2 with
    | ok v => rfl
    | error m => rw [he] at h2; simp [isErr] at h2

theorem joinSep_ne_empty (sep : String) (w : String) (ws : List String)
    (hw : w ≠ "") : joinSep sep (w :: ws) ≠ "" := by
  cases ws with
  | nil => simpa [joinSep] using hw
  | cons y ys =>
    simp only [joinSep]
    intro hcon
    apply hw
    have hdata : (w ++ sep ++ joinSep sep (y :: ys)).data = ([] : List Char) := by
      rw [hcon]
    rw [String.data_append, String.data_append, List.append_assoc,
      List.append_eq_nil] at hdata
    cases w with
    | mk d => cases hdata.1; rfl

theorem carrierTasks_label (env : Env) (net : Net) (body : JVal) (only : String) :
    ∀ t ∈ carrierTasks env net body only, t.1 = "UPS" ∨ t.1 = "FedEx" := by
  intro t ht
  unfold carrierTasks at ht
  rw [List.mem_append] at ht
  rcases ht with h | h <;> split at h <;> simp at h <;> simp [h]

theorem append_ne_empty_left (a b : String) (ha : a ≠ "") : a ++ b ≠ "" := by
  intro h
  apply ha
  have hd : (a ++ b).data = ([] : List Char) := by rw [h]
  rw [String.data_append, List.append_eq_nil] at hd
  cases a with
  | mk d => cases hd.1; rfl

/-- The chain up to the sort is ascending on total charge. -/
theorem sortQuotes_chain (l : List Quote) :
    List.Chain' (fun a b : Quote => a.total_charge ≤ b.total_charge) (sortQuotes l) :=
  (List.sorted_insertionSort byCharge l).chain'

/-! ### Witness fixtures: concrete environments, networks and requests -/

/-- An environment with every credential unset. -/
def emptyEnv : Env := ⟨"", "", "", ""⟩

/-- An environment with every credential present. -/
def okEnv : Env := ⟨"id", "secret", "id", "secret"⟩

/-- A network where every upstream call fails. -/
def failNet : Net :=
  ⟨⟨false, 500, "down", ""⟩, ⟨false, 500, "down"⟩, [],
   ⟨false, 401, "bad basic", ""⟩, ⟨false, 401, "bad body", ""⟩, ⟨false, 500, "down"⟩, []⟩

def wq1 : Quote := ⟨"UPS", "UPS Ground", 5, none, none, none⟩

def wq2 : Quote := ⟨"UPS", "UPS Next Day Air", 3, none, none, none⟩

/-- A network where UPS succeeds with two quotes and FedEx auth fails. -/
def mixedNet : Net :=
  ⟨⟨true, 200, "", "tok"⟩, ⟨true, 200, ""⟩, [wq1, wq2],
   ⟨false, 401, "bad basic", ""⟩, ⟨false, 401, "bad body", ""⟩, ⟨true, 200, ""⟩, []⟩

/-- A parse oracle that fails on every string. -/
def noParse : String → Option JVal := fun _ => none

/-! ### Claim C1 -/

/-- C1: for every POST request in which at least one carrier pipeline is
dispatched and every dispatched pipeline rejects, the handler responds
502 with `detail` equal to the per-carrier warning strings
(`"<CarrierName>: <error message>"`, as built by `settledWarnings`)
joined by `" | "`. -/
theorem post_all_carriers_fail_502 (env : Env) (net : Net) (parse : String → Option JVal)
    (req : Request) (hm : req.method = "POST") (hd : req.demo ≠ "1")
    (hne : carrierTasks env net (bodyOf parse req.body) (jsToLower req.only) ≠ [])
    (hall : ∀ t ∈ carrierTasks env net (bodyOf parse req.body) (jsToLower req.only),
      isErr t.2 = true) :
    handler env net parse req =
      ⟨502, .errBody "No rates from carriers"
        (joinSep " | "
          (settledWarnings (carrierTasks env net (bodyOf parse req.body) (jsToLower req.only))))⟩ := by
  rw [handler_post env net parse req hm hd]
  rw [settledQuotes_eq_nil hall]
  rw [if_pos (by rfl : ([] : List Quote).isEmpty = true)]
  cases hts : carrierTasks env net (bodyOf parse req.body) (jsToLower req.only) with
  | nil => exact absurd hts hne
  | cons t ts =>
    obtain ⟨n, r⟩ := t
    have h1 : isErr r = true := by
      have := hall (n, r) (by rw [hts]; exact List.mem_cons_self _ _)
      exact this
    cases r with
    | ok v => simp [isErr] at h1
    | error m =>
      have hlabel : n = "UPS" ∨ n = "FedEx" := by
        have := carrierTasks_label env net (bodyOf parse req.body) (jsToLower req.only)
          (n, Except.error m) (by rw [hts]; exact List.mem_cons_self _ _)
        exact this
      have hn : n ≠ "" := by rcases hlabel with h | h <;> rw [h] <;> decide
      have hwne : joinSep " | "
          (settledWarnings ((n, Except.error m) :: ts)) ≠ "" := by
        rw [settledWarnings_cons_error]
        exact joinSep_ne_empty _ _ _
          (append_ne_empty_left _ _ (append_ne_empty_left _ _ hn))
      rw [if_neg hwne]

theorem post_all_carriers_fail_502_witness :
    ("POST" = "POST") ∧
    handler okEnv failNet noParse ⟨"POST", "", "", "", .noBody⟩ =
      ⟨502, .errBody "No rates from carriers"
        (joinSep " | "
          (settledWarnings (carrierTasks okEnv failNet
            (bodyOf noParse RBodyIn.noBody) (jsToLower ""))))⟩ :=
  ⟨rfl, post_all_carriers_fail_502 okEnv failNet noParse ⟨"POST", "", "", "", .noBody⟩
    rfl (by decide) (by decide) (by decide)⟩

/-! ### Claim C2 -/

/-- C2: whenever the merged quote list is non-empty, the handler responds
200 with the merged list sorted so that every adjacent pair of quotes has
`total_charge` ascending, by purely numeric comparison. -/
theorem post_nonempty_sorted_200 (env : Env) (net : Net) (parse : String → Option JVal)
    (req : Request) (hm : req.method = "POST") (hd : req.demo ≠ "1")
    (hq : settledQuotes (carrierTasks env net (bodyOf parse req.body) (jsToLower req.only)) ≠ []) :
    (∃ w, handler env net parse req =
      ⟨200, .quotesBody
        (sortQuotes (settledQuotes (carrierTasks env net (bodyOf parse req.body) (jsToLower req.only)))) w⟩) ∧
    List.Chain' (fun a b : Quote => a.total_charge ≤ b.total_charge)
      (sortQuotes (settledQuotes (carrierTasks env net (bodyOf parse req.body) (jsToLower req.only)))) := by
  constructor
  · have hh := handler_post env net parse req hm hd
    rw [if_neg (by simpa using hq)] at hh
    exact ⟨_, hh⟩
  · exact sortQuotes_chain _

theorem post_nonempty_sorted_200_witness :
    (settledQuotes (carrierTasks okEnv mixedNet
        (bodyOf noParse RBodyIn.noBody) (jsToLower "")) ≠ []) ∧
    ((∃ w, handler okEnv mixedNet noParse ⟨"POST", "", "", "", .noBody⟩ =
      ⟨200, .quotesBody
        (sortQuotes (settledQuotes (carrierTasks okEnv mixedNet
          (bodyOf noParse RBodyIn.noBody) (jsToLower "")))) w⟩) ∧
    List.Chain' (fun a b : Quote => a.total_charge ≤ b.total_charge)
      (sortQuotes (settledQuotes (carrierTasks okEnv mixedNet
        (bodyOf noParse RBodyIn.noBody) (jsToLower ""))))) :=
  ⟨by decide,
   post_nonempty_sorted_200 okEnv mixedNet noParse ⟨"POST", "", "", "", .noBody⟩
     rfl (by decide) (by decide)⟩

/-! ### Claim C9 -/

/-- C9: every non-demo POST 200 response carries a non-empty quote list,
and its warnings field is present exactly when some but not every
dispatched pipeline failed. -/
theorem post_200_invariants (env : Env) (net : Net) (parse : String → Option JVal)
    (req : Request) (qs : List Quote) (w : Option (List String))
    (hm : req.method = "POST") (hd : req.demo ≠ "1")
    (h : handler env net parse req = ⟨200, .quotesBody qs w⟩) :
    qs ≠ [] ∧
      (w.isSome = true ↔
        ((∃ t ∈ carrierTasks env net (bodyOf parse req.body) (jsToLower req.only),
            isErr t.2 = true) ∧
          ¬ ∀ t ∈ carrierTasks env net (bodyOf parse req.body) (jsToLower req.only),
            isErr t.2 = true)) := by
  rw [handler_post env net parse req hm hd] at h
  by_cases hq :
      (settledQuotes (carrierTasks env net (bodyOf parse req.body) (jsToLower req.only))).isEmpty
  · rw [if_pos hq] at h
    injection h with h1 h2
    exact absurd h1 (by decide)
  · rw [if_neg hq] at h
    injection h with h1 h2
    injection h2 with h3 h4
    have hqne : settledQuotes (carrierTasks env net (bodyOf parse req.body)
        (jsToLower req.only)) ≠ [] := by simpa using hq
    constructor
    · rw [← h3]
      intro hcon
      apply hqne
      have hlen := (List.perm_insertionSort byCharge
        (settledQuotes (carrierTasks env net (bodyOf parse req.body) (jsToLower req.only)))).length_eq
      rw [show List.insertionSort byCharge (settledQuotes (carrierTasks env net
        (bodyOf parse req.body) (jsToLower req.only))) = sortQuotes (settledQuotes
        (carrierTasks env net (bodyOf parse req.body) (jsToLower req.only))) from rfl,
        hcon] at hlen
      exact List.length_eq_zero.mp hlen.symm
    · rw [← h4]
      by_cases he : (settledWarnings (carrierTasks env net (bodyOf parse req.body)
          (jsToLower req.only))).isEmpty
      · rw [if_pos he]
        simp only [Option.isSome_none]
        constructor
        · intro hcon; exact absurd hcon (by decide)
        · rintro ⟨⟨t, ht, herr⟩, -⟩
          have hnone := (settledWarnings_eq_nil_iff _).mp (List.isEmpty_iff.mp he) t ht
          rw [herr] at hnone
          exact absurd hnone (by decide)
      · rw [if_neg he]
        simp only [Option.isSome_some, true_iff]
        have hene : settledWarnings (carrierTasks env net (bodyOf parse req.body)
            (jsToLower req.only)) ≠ [] := by simpa using he
        constructor
        · by_contra hno
          push_neg at hno
          apply hene
          rw [settledWarnings_eq_nil_iff]
          intro t ht
          have := hno t ht
          cases hi : isErr t.2 with
          | true => exact absurd hi this
          | false => rfl
        · intro hall
          exact hqne (settledQuotes_eq_nil hall)

theorem post_200_invariants_witness :
    (handler okEnv mixedNet noParse ⟨"POST", "", "", "", .noBody⟩ =
      ⟨200, .quotesBody (sortQuotes [wq1, wq2])
        (some ["FedEx: FedEx auth failed 401 bad body"])⟩) ∧
    ((sortQuotes [wq1, wq2] : List Quote) ≠ [] ∧
      ((some ["FedEx: FedEx auth failed 401 bad body"] : Option (List String)).isSome = true ↔
        ((∃ t ∈ carrierTasks okEnv mixedNet (bodyOf noParse RBodyIn.noBody) (jsToLower ""),
            isErr t.2 = true) ∧
          ¬ ∀ t ∈ carrierTasks okEnv mixedNet (bodyOf noParse RBodyIn.noBody) (jsToLower ""),
            isErr t.2 = true))) :=
  ⟨by decide,
   post_200_invariants okEnv mixedNet noParse ⟨"POST", "", "", "", .noBody⟩
     (sortQuotes [wq1, wq2]) (some ["FedEx: FedEx auth failed 401 bad body"])
     rfl (by decide) (by decide)⟩

/-! ### Claim C10 -/

/-- C10: a POST whose `only` hint lowercases to a non-empty string other
than `"ups"` or `"fedex"` dispatches no pipeline at all and yields 502
with detail `"No quotes"`, whatever the body. -/
theorem post_unknown_only_502 (env : Env) (net : Net) (parse : String → Option JVal)
    (req : Request) (hm : req.method = "POST") (hd : req.demo ≠ "1")
    (h1 : jsToLower req.only ≠ "") (h2 : jsToLower req.only ≠ "ups")
    (h3 : jsToLower req.only ≠ "fedex") :
    carrierTasks env net (bodyOf parse req.body) (jsToLower req.only) = [] ∧
    handler env net parse req =
      ⟨502, .errBody "No rates from carriers" "No quotes"⟩ := by
  have htasks : carrierTasks env net (bodyOf parse req.body) (jsToLower req.only) = [] := by
    unfold carrierTasks
    rw [if_neg (by rintro (h | h); exact h1 h; exact h2 h),
      if_neg (by rintro (h | h); exact h1 h; exact h3 h)]
    rfl
  refine ⟨htasks, ?_⟩
  rw [handler_post env net parse req hm hd, htasks]
  rfl

theorem post_unknown_only_502_witness :
    (jsToLower "DHL" ≠ "ups") ∧
    (carrierTasks okEnv mixedNet (bodyOf noParse RBodyIn.noBody) (jsToLower "DHL") = [] ∧
      handler okEnv mixedNet noParse ⟨"POST", "", "", "DHL", .noBody⟩ =
        ⟨502, .errBody "No rates from carriers" "No quotes"⟩) :=
  ⟨by decide,
   post_unknown_only_502 okEnv mixedNet noParse ⟨"POST", "", "", "DHL", .noBody⟩
     rfl (by decide) (by decide) (by decide) (by decide)⟩

/-! ### Claim C5 -/

/-- C5: FedEx token acquisition tries Basic auth first; the body-creds
attempt happens iff credentials are present and the Basic response is
not successful; an auth error arises iff credentials are missing or both
attempts are non-success; at most two token calls occur, at most one of
them the body-creds retry; and whether the retry happens does not depend
on the status or body text of the first response, only on its success
flag. -/
theorem fedex_auth_fallback (env : Env) (net : Net) :
    ((FxAttempt.bodyCreds ∈ (fedexAuthSteps env net).2) ↔
      (¬ (env.FEDEX_CLIENT_ID = "" ∨ env.FEDEX_CLIENT_SECRET = "") ∧
        net.fedexBasicRes.ok = false)) ∧
    (fedexAuthSteps env net).2.length ≤ 2 ∧
    (fedexAuthSteps env net).2.count FxAttempt.bodyCreds ≤ 1 ∧
    (isErr (fedexAuthSteps env net).1 = true ↔
      (env.FEDEX_CLIENT_ID = "" ∨ env.FEDEX_CLIENT_SECRET = "" ∨
        (net.fedexBasicRes.ok = false ∧ net.fedexBodyRes.ok = false))) ∧
    ((fedexAuthSteps env net).2 = [] ∨
      ∃ rest, (fedexAuthSteps env net).2 = FxAttempt.basicHeader :: rest) ∧
    (∀ st txt tok,
      (fedexAuthSteps env
        { net with fedexBasicRes := ⟨net.fedexBasicRes.ok, st, txt, tok⟩ }).2 =
        (fedexAuthSteps env net).2) := by
  unfold fedexAuthSteps
  by_cases h1 : env.FEDEX_CLIENT_ID = "" ∨ env.FEDEX_CLIENT_SECRET = "" <;>
    by_cases h2 : net.fedexBasicRes.ok <;>
      by_cases h3 : net.fedexBodyRes.ok <;>
        simp [h1, h2, h3, isErr]

/-! ### Claim C6 (corrected) -/

/-- Counterexample to C6 as stated: with every credential absent and the
demo flag NOT set, the response is a 502 carrying the per-carrier
credential failures, not the four fixed demo quotes; so absent
credentials alone do not put the handler in demo/mock mode. -/
theorem demo_mode_requires_flag_cex :
    handler emptyEnv failNet noParse ⟨"POST", "", "", "", .noBody⟩ =
      ⟨502, .errBody "No rates from carriers"
        "UPS: UPS credentials missing | FedEx: FedEx credentials missing"⟩ ∧
    handler emptyEnv failNet noParse ⟨"POST", "", "", "", .noBody⟩ ≠
      ⟨200, .quotesBody demoResponse none⟩ := by
  constructor
  · decide
  · intro h
    injection h with h1 h2
    exact absurd h1 (by decide)

/-- C6 (amended): demo/mock mode applies exactly when the explicit demo
flag is set; then the response is 200 with exactly the four fixed quotes
(two UPS, two FedEx), identically for every request body. -/
theorem demo_flag_fixed_quotes (env : Env) (net : Net) (parse : String → Option JVal)
    (req : Request) (b1 b2 : RBodyIn)
    (hm : req.method = "POST") (hd : req.demo = "1") :
    handler env net parse req = ⟨200, .quotesBody demoResponse none⟩ ∧
    demoResponse.length = 4 ∧
    (demoResponse.filter fun q => q.carrier = "UPS").length = 2 ∧
    (demoResponse.filter fun q => q.carrier = "FedEx").length = 2 ∧
    handler env net parse { req with body := b1 } =
      handler env net parse { req with body := b2 } := by
  have key : ∀ b : RBodyIn, handler env net parse { req with body := b } =
      ⟨200, .quotesBody demoResponse none⟩ := by
    intro b
    unfold handler
    rw [show ({ req with body := b } : Request).method = "POST" from hm]
    rw [if_neg (by decide : ¬ ("POST" = "OPTIONS"))]
    simp only []
    rw [if_neg (by decide : ¬ ("POST" = "GET"))]
    simp only [not_true, if_false]
    rw [show ({ req with body := b } : Request).demo = "1" from hd]
    rw [if_pos rfl]
  refine ⟨?_, by decide, by decide, by decide, (key b1).trans (key b2).symm⟩
  have := key req.body
  simpa using this

theorem demo_flag_fixed_quotes_witness :
    handler emptyEnv failNet noParse ⟨"POST", "1", "", "", .noBody⟩ =
      ⟨200, .quotesBody demoResponse none⟩ ∧
    demoResponse.length = 4 ∧
    (demoResponse.filter fun q => q.carrier = "UPS").length = 2 ∧
    (demoResponse.filter fun q => q.carrier = "FedEx").length = 2 ∧
    handler emptyEnv failNet noParse ⟨"POST", "1", "", "", RBodyIn.str "junk"⟩ =
      handler emptyEnv failNet noParse ⟨"POST", "1", "", "", RBodyIn.obj (JVal.num 7)⟩ :=
  demo_flag_fixed_quotes emptyEnv failNet noParse ⟨"POST", "1", "", "", .noBody⟩
    (RBodyIn.str "junk") (RBodyIn.obj (JVal.num 7)) rfl rfl

/-! ### Claim C7 -/

/-- The labels of the dispatched carrier pipelines, in invocation order. -/
def dispatchedCarriers (env : Env) (net : Net) (parse : String → Option JVal)
    (req : Request) : List String :=
  (carrierTasks env net (bodyOf parse req.body) (jsToLower req.only)).map Prod.fst

/-- C7: a POST whose `only` hint lowercases to a known carrier name
dispatches exactly that carrier's pipeline; an absent or empty hint
dispatches exactly the two pipelines, UPS first, then FedEx. -/
theorem only_hint_dispatch (env : Env) (net : Net) (parse : String → Option JVal)
    (req : Request) :
    (jsToLower req.only = "ups" → dispatchedCarriers env net parse req = ["UPS"]) ∧
    (jsToLower req.only = "fedex" → dispatchedCarriers env net parse req = ["FedEx"]) ∧
    (req.only = "" → dispatchedCarriers env net parse req = ["UPS", "FedEx"]) := by
  unfold dispatchedCarriers carrierTasks
  refine ⟨fun h => ?_, fun h => ?_, fun h => ?_⟩
  · rw [h, if_pos (Or.inr rfl), if_neg (by decide)]; rfl
  · rw [h, if_neg (by decide), if_pos (Or.inr rfl)]; rfl
  · rw [h, show jsToLower "" = "" from rfl, if_pos (Or.inl rfl), if_pos (Or.inl rfl)]; rfl

theorem only_hint_dispatch_witness :
    (jsToLower "UPS" = "ups") ∧
    dispatchedCarriers okEnv mixedNet noParse ⟨"POST", "", "", "UPS", .noBody⟩ = ["UPS"] :=
  ⟨by decide,
   (only_hint_dispatch okEnv mixedNet noParse ⟨"POST", "", "", "UPS", .noBody⟩).1 (by decide)⟩

/-! ### Claim C8 -/

/-- C8: computing the spec from a string body is total and never
propagates a parse failure: a successful parse is used as is, and a
failed parse degrades to the empty object. -/
theorem string_body_parse_total (parse : String → Option JVal) (s : String) :
    (∃ v, parse s = some v ∧ bodyOf parse (.str s) = v) ∨
      (parse s = none ∧ bodyOf parse (.str s) = JVal.obj []) := by
  cases h : parse s with
  | some v => exact Or.inl ⟨v, rfl, by simp [bodyOf, safeParse, h]⟩
  | none => exact Or.inr ⟨rfl, by simp [bodyOf, safeParse, h]⟩

/-! ### Claim C3 -/

theorem includesAux_infix (ndl : List Char) :
    ∀ hay, includesAux ndl hay = true ↔ ndl <:+: hay := by
  intro hay
  induction hay with
  | nil => simp [includesAux, List.infix_nil, List.isEmpty_iff]
  | cons c rest ih =>
    simp [includesAux, List.isPrefixOf_iff_prefix, ih, List.infix_cons_iff]

theorem jsIncludes_infix (hay ndl : String) :
    jsIncludes hay ndl = true ↔ ndl.data <:+: hay.data :=
  includesAux_infix ndl.data hay.data

/-- C3: with a non-empty filter list, a quote is kept iff some filter
token, lowercased, yields (through the keyword table, or as itself when
unrecognized) a keyword occurring inside the lowercased service name; in
particular `["overnight"]` keeps "FedEx Priority Overnight" and drops
"UPS Ground". -/
theorem filter_services_keeps :
    (∀ (q : Quote) (filters : List String), filters ≠ [] →
      (filterServices q filters = true ↔
        ∃ f ∈ filters, ∃ k ∈ kwMap (jsToLower f),
          k.data <:+: (jsToLower q.service_name).data)) ∧
    filterServices ⟨"FedEx", "FedEx Priority Overnight", 10, none, none, none⟩
      ["overnight"] = true ∧
    filterServices ⟨"UPS", "UPS Ground", 10, none, none, none⟩
      ["overnight"] = false := by
  refine ⟨fun q filters hne => ?_, by decide, by decide⟩
  unfold filterServices
  rw [if_neg (by simpa using hne)]
  simp only [List.any_eq_true, jsIncludes_infix]

theorem filter_services_keeps_witness :
    ((["overnight"] : List String) ≠ []) ∧
    (filterServices ⟨"FedEx", "FedEx Priority Overnight", 10, none, none, none⟩
        ["overnight"] = true ↔
      ∃ f ∈ (["overnight"] : List String), ∃ k ∈ kwMap (jsToLower f),
        k.data <:+:
          (jsToLower (Quote.service_name
            ⟨"FedEx", "FedEx Priority Overnight", 10, none, none, none⟩)).data) :=
  ⟨by decide,
   filter_services_keeps.1 ⟨"FedEx", "FedEx Priority Overnight", 10, none, none, none⟩
     ["overnight"] (by decide)⟩

/-! ### Claim C4 (corrected) -/

theorem pickK_spec (l : List Char) :
    ∀ m k, pickK l m = some k →
      1 ≤ k ∧ (l.drop k).take 4 = ['_', 'D', 'A', 'Y'] := by
  intro m
  induction m with
  | zero => intro k h; simp [pickK] at h
  | succ m ih =>
    intro k h
    by_cases hc : (l.drop (m + 1)).take 4 = ['_', 'D', 'A', 'Y']
    · rw [show pickK l (m + 1) =
          (if (l.drop (m + 1)).take 4 = ['_', 'D', 'A', 'Y'] then some (m + 1)
           else pickK l m) from rfl, if_pos hc] at h
      injection h with h'
      subst h'
      exact ⟨Nat.succ_le_succ (Nat.zero_le m), hc⟩
    · rw [show pickK l (m + 1) =
          (if (l.drop (m + 1)).take 4 = ['_', 'D', 'A', 'Y'] then some (m + 1)
           else pickK l m) from rfl, if_neg hc] at h
      exact ih k h

theorem capAt_spec (l : List Char) (c : List Char) (h : capAt l = some c) :
    ∃ k, c = l.take k ∧ (l.drop k).take 4 = ['_', 'D', 'A', 'Y'] := by
  unfold capAt at h
  cases hp : pickK l (l.takeWhile isWordChar).length with
  | none => rw [hp] at h; simp at h
  | some k =>
    rw [hp] at h
    injection h with h'
    obtain ⟨-, h4⟩ := pickK_spec l _ k hp
    exact ⟨k, h'.symm, h4⟩

theorem findCap_spec : ∀ l c, findCap l = some c →
    ∃ lsuf, lsuf <:+ l ∧ capAt lsuf = some c := by
  intro l
  induction l with
  | nil => intro c h; simp [findCap] at h
  | cons a rest ih =>
    intro c h
    unfold findCap at h
    cases hc : capAt (a :: rest) with
    | some cap =>
      rw [hc] at h
      injection h with h'
      exact ⟨a :: rest, List.suffix_refl _, by rw [hc, h']⟩
    | none =>
      rw [hc] at h
      obtain ⟨lsuf, hs, hcap⟩ := ih c h
      exact ⟨lsuf, hs.trans (List.suffix_cons a rest), hcap⟩

theorem wordMap_range (w : List Char) (n : Nat) (h : wordMap w = some n) :
    1 ≤ n ∧ n ≤ 7 := by
  unfold wordMap at h
  repeat' split at h
  all_goals first
    | (injection h with h'; omega)
    | exact absurd h (by simp)

/-- Counterexample to C4 as stated: the string "NEXT_DAY TWO_DAYS"
contains the token `TWO_DAYS` (shape WORD_DAYS with WORD a cardinal),
yet `parseTransit` yields no value, because the leftmost regex match
captures `NEXT` and the table miss is not retried further right. -/
theorem parse_transit_token_cex :
    claimContainsCardinalToken "NEXT_DAY TWO_DAYS" = true ∧
    parseTransit "NEXT_DAY TWO_DAYS" = none := by decide

/-- C4 (amended): `parseTransit` maps "TWO_DAYS" to 2, "NEXT_DAY" and ""
to no value; it is total, and any returned value is an integer n with
1 ≤ n ≤ 7 whose cardinal word followed by `_DAY` occurs inside the
input; the converse (a value is returned whenever such a token occurs)
fails, as an earlier non-cardinal match can shadow it. -/
theorem parse_transit_amended :
    parseTransit "TWO_DAYS" = some 2 ∧
    parseTransit "NEXT_DAY" = none ∧
    parseTransit "" = none ∧
    ∀ (s : String) (n : Nat), parseTransit s = some n →
      1 ≤ n ∧ n ≤ 7 ∧
        ∃ w, wordMap w = some n ∧ (w ++ "_DAY".data) <:+: s.data := by
  refine ⟨by decide, by decide, by decide, fun s n h => ?_⟩
  unfold parseTransit at h
  obtain ⟨c, hc, hw⟩ := Option.bind_eq_some.mp h
  obtain ⟨h1, h7⟩ := wordMap_range c n hw
  refine ⟨h1, h7, c, hw, ?_⟩
  obtain ⟨lsuf, hs, hcap⟩ := findCap_spec s.data c hc
  obtain ⟨k, hck, h4⟩ := capAt_spec lsuf c hcap
  have hpre : c ++ "_DAY".data <+: lsuf := by
    have heq : c ++ "_DAY".data = lsuf.take (k + 4) := by
      rw [List.take_add, ← hck, h4]
    rw [heq]
    exact List.take_prefix _ _
  exact hpre.isInfix.trans hs.isInfix

theorem parse_transit_amended_witness :
    1 ≤ 2 ∧ 2 ≤ 7 ∧
      ∃ w, wordMap w = some 2 ∧ (w ++ "_DAY".data) <:+: ("TWO_DAYS" : String).data :=
  parse_transit_amended.2.2.2 "TWO_DAYS" 2 (by decide)

end ShipQuotes
